import Mathlib

/-!
Verification of behavioral properties of several components of the repository:
the SNS Root canister (src/rs/sns/root/src/lib.rs), the ckETH minter canister
(src/rs/ethereum/cketh/minter/src/main.rs), the PocketIC server
(src/rs/pocket_ic_server/src/main.rs) and the boundary-node TLS verifier
(src/rs/boundary_node/ic_boundary/src/tls_verify.rs).

Each Rust function under scrutiny is given a shallow embedding as an
executable Lean definition; principals, canister ids, hashes and keys are
modelled as natural numbers, byte strings as lists of naturals, and the
outcomes of external collaborators (the management canister, the Ethereum
JSON-RPC providers, the ledger, DER parsers and signature checkers) are passed
in as explicit arguments so that every control-flow branch of the source is
represented.
-/

namespace SnsRoot

/-- Mirrors `const ONE_DAY_SECONDS: u64 = 24 * 60 * 60` in src/rs/sns/root/src/lib.rs. -/
def ONE_DAY_SECONDS : Nat := 24 * 60 * 60

/-- The state of the SNS Root canister (struct `SnsRootCanister`), with
`PrincipalId` modelled as `Nat`. -/
structure SnsRootCanister where
  governance_canister_id : Nat
  ledger_canister_id : Nat
  swap_canister_id : Nat
  index_canister_id : Nat
  dapp_canister_ids : List Nat
  archive_canister_ids : List Nat
  latest_ledger_archive_poll_timestamp_seconds : Option Nat
  testflight : Bool
deriving DecidableEq, Repr

/-- Embedding of `SnsRootCanister::should_poll_for_new_archive_canisters`.
The source computes `current_timestamp_seconds - latest_poll_timestamp_seconds`
with an unchecked `u64` subtraction; in a build with overflow checks this
panics when the current timestamp is smaller than the recorded one, which is
modelled by returning `none`. -/
def should_poll_for_new_archive_canisters
    (latest_ledger_archive_poll_timestamp_seconds : Option Nat)
    (current_timestamp_seconds : Nat) : Option Bool :=
  match latest_ledger_archive_poll_timestamp_seconds with
  | some latest_poll_timestamp_seconds =>
    if current_timestamp_seconds < latest_poll_timestamp_seconds then
      none
    else if current_timestamp_seconds - latest_poll_timestamp_seconds < ONE_DAY_SECONDS then
      some false
    else
      some true
  | none => some true

/-- Embedding of `SnsRootCanister::compare_archives_responses`: one defect
message per previously tracked archive principal missing from the new
response.  The source joins the messages with a newline and later tests the
joined string for emptiness; since every message is nonempty, that test is
equivalent to the emptiness of this list. -/
def compare_archives_responses (old_archive_canisters new_archive_canisters : List Nat) :
    List String :=
  (old_archive_canisters.filter (fun p => !(new_archive_canisters.contains p))).map
    (fun p =>
      "Previous archive_canister_ids PrincipalId " ++ toString p ++
        " is missing from response of new poll")

/-- Embedding of `SnsRootCanister::poll_for_new_archive_canisters`.  The poll
timestamp is recorded first; then the ledger call result (passed in as
`archives_result`) is examined: a call error leaves the archive list alone,
and a response with defects (a previously tracked archive missing) is
discarded wholesale. -/
def poll_for_new_archive_canisters (s : SnsRootCanister) (current_timestamp_seconds : Nat)
    (archives_result : Except Unit (List Nat)) : SnsRootCanister :=
  let s1 : SnsRootCanister :=
    { s with latest_ledger_archive_poll_timestamp_seconds := some current_timestamp_seconds }
  match archives_result with
  | .error _ => s1
  | .ok archive_principals_ids =>
    if compare_archives_responses s1.archive_canister_ids archive_principals_ids = [] then
      { s1 with archive_canister_ids := archive_principals_ids }
    else
      s1

/-- The list `sns_canister_ids` built in `register_dapp_canisters`: root,
governance, ledger, index, swap, followed by all tracked archive ids. -/
def snsCanisterIds (root_canister_id : Nat) (s : SnsRootCanister) : List Nat :=
  root_canister_id :: s.governance_canister_id :: s.ledger_canister_id ::
    s.index_canister_id :: s.swap_canister_id :: s.archive_canister_ids

/-- Insertion into a strictly ascending list without duplicates; models
inserting into a `BTreeSet<PrincipalId>`. -/
def insertSorted (a : Nat) : List Nat → List Nat
  | [] => [a]
  | b :: l =>
    if a < b then a :: b :: l
    else if a = b then b :: l
    else b :: insertSorted a l

/-- Collecting a request into a `BTreeSet` and iterating it: deduplicated ids
in ascending order. -/
def toSortedSet (l : List Nat) : List Nat :=
  l.foldl (fun acc a => insertSorted a acc) []

/-- Result of a `register_dapp_canisters` call: either the call completed, or
it panicked somewhere in the loop.  In both cases the field records the
`dapp_canister_ids` list as left behind by the call: the source mutates the
thread-local state with `dapp_canister_ids.push` as it goes, and a later
panic does not undo pushes already performed. -/
inductive RegisterOutcome
  | success (dapp_canister_ids : List Nat)
  | aborted (dapp_canister_ids : List Nat)
deriving DecidableEq, Repr

/-- The per-id loop of `SnsRootCanister::register_dapp_canisters`.
`env` models the management canister: the controller list it reports for each
canister id (`canister_status(..).controllers()`); `update_settings` is
modelled as succeeding and setting the controller list to exactly `[root]`,
after which the sanity re-check of the source passes.  `sns_ids` and
`snapshot_dapps` are the snapshots taken from `list_sns_canisters` before the
loop starts. -/
def registerLoop (env : Nat → List Nat) (root_canister_id : Nat)
    (sns_ids snapshot_dapps : List Nat) (testflight : Bool)
    (dapps : List Nat) : List Nat → RegisterOutcome
  | [] => .success dapps
  | q :: rest =>
    if sns_ids.contains q then
      -- "The requested canister is an SNS canister." panic
      .aborted dapps
    else if snapshot_dapps.contains q then
      -- already registered: skip
      registerLoop env root_canister_id sns_ids snapshot_dapps testflight dapps rest
    else
      let controllers := env q
      if !(controllers.contains root_canister_id) then
        -- "is not controlled by this SNS root canister" panic
        .aborted dapps
      else if controllers ≠ [root_canister_id] ∧ testflight = false then
        registerLoop (fun x => if x = q then [root_canister_id] else env x)
          root_canister_id sns_ids snapshot_dapps testflight (dapps ++ [q]) rest
      else
        registerLoop env root_canister_id sns_ids snapshot_dapps testflight
          (dapps ++ [q]) rest

/-- Embedding of `SnsRootCanister::register_dapp_canisters`: reject an empty
request, deduplicate the ids into ascending order, then run the loop against
the snapshot of distinguished SNS ids and already registered dapps. -/
def register_dapp_canisters (env : Nat → List Nat) (root_canister_id : Nat)
    (s : SnsRootCanister) (request : List Nat) : RegisterOutcome :=
  if request = [] then
    .aborted s.dapp_canister_ids
  else
    registerLoop env root_canister_id (snsCanisterIds root_canister_id s)
      s.dapp_canister_ids s.testflight s.dapp_canister_ids (toSortedSet request)

end SnsRoot

namespace CkEthMinter

/-- Mirrors `const MAX_BLOCK_SPREAD: u16 = 1024` in `scrap_eth_logs_between`
(src/rs/ethereum/cketh/minter/src/main.rs). -/
def MAX_BLOCK_SPREAD : Nat := 1024

/-- Outcome of one `scrap_eth_logs_between(contract, from, to)` call.
`scraped lo hi` means the events of the block span from `lo` to `hi` were
retrieved, `last_scraped_block_number` was set to `hi`, and `hi` was returned;
`noop ret` is the `from == to` branch returning `to`; `trap` is the
`ic_cdk::trap` of the `from > to` branch. -/
inductive ScrapSpanResult
  | scraped (spanFrom spanTo : Nat)
  | noop (ret : Nat)
  | trap
deriving DecidableEq, Repr

/-- Embedding of `scrap_eth_logs_between`, restricted to its block-range
arithmetic.  `BlockNumber` is an unsigned 256-bit quantity; since
`checked_add` saturated to `BlockNumber::MAX` still yields
`min(from + 1024, to)` whenever `to` is a representable block number, plain
naturals model it exactly. -/
def scrap_eth_logs_between (fromBlock toBlock : Nat) : ScrapSpanResult :=
  if fromBlock < toBlock then
    .scraped fromBlock (min (fromBlock + MAX_BLOCK_SPREAD) toBlock)
  else if fromBlock = toBlock then
    .noop toBlock
  else
    .trap

/-- The driving loop of `scrap_eth_logs`: starting from
`last_scraped_block_number = fromBlock`, repeatedly call
`scrap_eth_logs_between` until the scraped position reaches the queried block
`toBlock`; returns the final `last_scraped_block_number`. -/
def scrap_eth_logs (fromBlock toBlock : Nat) : Nat :=
  if fromBlock < toBlock then
    scrap_eth_logs (min (fromBlock + MAX_BLOCK_SPREAD) toBlock) toBlock
  else
    fromBlock
termination_by toBlock - fromBlock
decreasing_by
  simp only [MAX_BLOCK_SPREAD]
  omega

/-- Mirrors `TransactionStatus` in
src/rs/ethereum/cketh/minter/src/eth_rpc_client/responses.rs. -/
inductive TransactionStatus
  | success
  | failure
deriving DecidableEq, Repr

/-- Mirrors `TransactionReceipt` in
src/rs/ethereum/cketh/minter/src/eth_rpc_client/responses.rs, with hashes and
numeric quantities modelled as naturals. -/
structure TransactionReceipt where
  block_hash : Nat
  block_number : Nat
  effective_gas_price : Nat
  gas_used : Nat
  status : TransactionStatus
  transaction_hash : Nat
deriving DecidableEq, Repr

/-- The receipt-collection loop of `finalize_transactions_batch`: the input
pairs each entry of `sent_transactions_to_finalize` (a transaction hash and
its withdrawal id, hashes pairwise distinct) with the result of its
`eth_get_transaction_receipt` call (`.error` a failed RPC call, `.ok none` a
transaction that was not mined).  A second receipt for a withdrawal id
already present in the accumulated map makes the pass return early
(`none`); a failed receipt fetch does too. -/
def collectReceipts (acc : List (Nat × TransactionReceipt)) :
    List ((Nat × Nat) × Except Unit (Option TransactionReceipt)) →
      Option (List (Nat × TransactionReceipt))
  | [] => some acc
  | ((_hash, withdrawal_id), result) :: rest =>
    match result with
    | .ok (some receipt) =>
      if withdrawal_id ∈ acc.map Prod.fst then
        -- "received different receipts for transaction ... Will retry later": abort the pass
        none
      else
        collectReceipts (acc ++ [(withdrawal_id, receipt)]) rest
    | .ok none => collectReceipts acc rest
    | .error _ => none

/-- Embedding of `finalize_transactions_batch` from the point where the
finalized transaction count is known: collect the receipts, assert that the
set of withdrawal ids with a receipt equals the expected set, and only then
record one finalized transaction per receipt.  `record` abstracts
`record_finalized_transaction` on the minter transaction state `σ`; an
aborted pass (early return or failed assertion, which traps before any
mutation) leaves the state unchanged. -/
def finalize_transactions_batch {σ : Type} (record : σ → Nat → TransactionReceipt → σ)
    (s : σ) (items : List ((Nat × Nat) × Except Unit (Option TransactionReceipt))) : σ :=
  match collectReceipts [] items with
  | none => s
  | some receipts =>
    if (items.map (fun it => it.1.2)).toFinset = (receipts.map Prod.fst).toFinset then
      receipts.foldl (fun st p => record st p.1 p.2) s
    else
      s

/-- Mirrors the variants of the minter's `SendRawTransactionResult` RPC reply
(the type itself lives outside the sample; the spec names `NonceTooLow` and
treats every other rejection uniformly, and the two extra variants here are
representative of those other rejections). -/
inductive SendRawTransactionResult
  | Ok
  | InsufficientFunds
  | NonceTooLow
  | NonceTooHigh
deriving DecidableEq, Repr

/-- Mirrors the minter's `JsonRpcResult`: a payload or an RPC-level error with
code and message. -/
inductive JsonRpcResult (α : Type)
  | result (r : α)
  | error (code : Int) (message : String)

/-- The per-transaction handling in `send_transactions_batch`
(src/rs/ethereum/cketh/minter/src/main.rs): `record_sent_transaction` (the
abstract `record` on the minter transaction state `σ`) is invoked exactly for
a successful broadcast and for a `NonceTooLow` reply; every other RPC
rejection (`.result` of another variant or `.error`) and every transport
error (`none`) only logs and leaves the state alone. -/
def process_send_result {σ : Type} (record : σ → Nat → σ) (s : σ) (tx : Nat)
    (result : Option (JsonRpcResult SendRawTransactionResult)) : σ :=
  match result with
  | some (.result .Ok) => record s tx
  | some (.result .NonceTooLow) => record s tx
  | some (.result _) => s
  | some (.error _ _) => s
  | none => s

/-- The whole `send_transactions_batch` loop over the signed transactions
zipped with their broadcast results. -/
def send_transactions_batch {σ : Type} (record : σ → Nat → σ) (s : σ)
    (items : List (Nat × Option (JsonRpcResult SendRawTransactionResult))) : σ :=
  items.foldl (fun st p => process_send_result record st p.1 p.2) s

end CkEthMinter

namespace PocketIc

/-- Embedding of the PocketIC server's `verify_signature` handler
(src/rs/pocket_ic_server/src/main.rs).  The outcomes of the external
cryptographic library calls are passed in: `pubkey_parse` is the result of
`public_key_bytes_from_der`, `root_parse` of
`parse_threshold_sig_key_from_der`, and `verify_result` of `verify` applied
to the two parsed keys.  The returned pair is the HTTP status code and the
JSON body.  `200` is `StatusCode::OK`, `400` is `StatusCode::BAD_REQUEST`
and `406` is `StatusCode::NOT_ACCEPTABLE`. -/
def verify_signature (pubkey_parse : Except String Nat) (root_parse : Except String Nat)
    (verify_result : Nat → Nat → Except String Unit) : Nat × Except String Unit :=
  match pubkey_parse with
  | .error err => (400, .error ("Failed to parse DER encoded public key: " ++ err))
  | .ok pubkey =>
    match root_parse with
    | .error err => (400, .error ("Failed to parse DER encoded root public key: " ++ err))
    | .ok root_pubkey =>
      match verify_result pubkey root_pubkey with
      | .ok _ => (200, .ok ())
      | .error err =>
        (406, .error ("Canister signature verification failed: " ++ err))

/-- An HTTP status code in the client-error class (4xx). -/
def isClientError (code : Nat) : Bool :=
  400 ≤ code && code < 500

/-- Mirrors `BlobCompression` of the PocketIC blob store. -/
inductive BlobCompression
  | NoCompression
  | Gzip
deriving DecidableEq, Repr

/-- Mirrors `BinaryBlob`: the stored bytes together with their compression
marker. -/
structure BinaryBlob where
  data : List Nat
  compression : BlobCompression
deriving DecidableEq, Repr

/-- Insert-or-overwrite into the blob map, modelling
`HashMap::insert(key, blob)`. -/
def blobInsert (m : List (List Nat × BinaryBlob)) (key : List Nat) (blob : BinaryBlob) :
    List (List Nat × BinaryBlob) :=
  match m with
  | [] => [(key, blob)]
  | (k, v) :: rest =>
    if k = key then (key, blob) :: rest else (k, v) :: blobInsert rest key blob

/-- Embedding of `InMemoryBlobStore::store`: the key is the digest of the
blob's `data` field only (the source hashes `blob.data` with SHA-256 and
never feeds the compression marker to the hasher), and the entry is inserted
with overwrite.  The digest function is a parameter, so every theorem below
holds for SHA-256 in particular.  Returns the updated map and the `BlobId`. -/
def store (hash : List Nat → List Nat) (m : List (List Nat × BinaryBlob))
    (blob : BinaryBlob) : List (List Nat × BinaryBlob) × List Nat :=
  let key := hash blob.data
  (blobInsert m key blob, key)

/-- Embedding of `InMemoryBlobStore::fetch`: lookup by blob id. -/
def fetch (m : List (List Nat × BinaryBlob)) (blob_id : List Nat) : Option BinaryBlob :=
  match m with
  | [] => none
  | (k, v) :: rest => if k = blob_id then some v else fetch rest blob_id

/-- Embedding of the `GET /blobstore/:id` handler `get_blob_store_entry`,
after the hex-decoding of the id (a bijective transport encoding): status
code, the optional `Content-Encoding` response header, and the body. -/
def get_blob_store_entry (m : List (List Nat × BinaryBlob)) (id : List Nat) :
    Nat × Option String × List Nat :=
  match fetch m id with
  | some blob =>
    match blob.compression with
    | .Gzip => (200, some "gzip", blob.data)
    | .NoCompression => (200, none, blob.data)
  | none => (404, none, [])

/-- Embedding of the `POST /blobstore` handler `set_blob_store_entry`: the
optional `Content-Encoding` request header selects the compression marker
(`gzip` allowed, anything else rejected with `400`), and the body bytes are
stored as received.  Returns the updated map, the status code, and the blob
id on success. -/
def set_blob_store_entry (hash : List Nat → List Nat) (m : List (List Nat × BinaryBlob))
    (content_encoding : Option String) (body : List Nat) :
    List (List Nat × BinaryBlob) × Nat × Option (List Nat) :=
  match content_encoding with
  | some enc =>
    if enc = "gzip" then
      let r := store hash m { data := body, compression := .Gzip }
      (r.1, 200, some r.2)
    else
      (m, 400, none)
  | none =>
    let r := store hash m { data := body, compression := .NoCompression }
    (r.1, 200, some r.2)

end PocketIc

namespace TlsVerify

/-- A parsed X.509 certificate, reduced to the attributes
`verify_server_cert` inspects: the subject public key, the key that actually
produced the certificate's signature, and the validity interval. -/
structure ParsedCert where
  subject_key : Nat
  signer_key : Nat
  not_before : Int
  not_after : Int
deriving DecidableEq, Repr

/-- A node record of the registry snapshot.  The source stores the
DER-encoded certificate and re-parses it with `unwrap` (registry certificates
are parse-checked on ingestion), so the parsed form is stored directly. -/
structure Node where
  tls_certificate : ParsedCert
deriving DecidableEq, Repr

/-- Mirrors `RegistrySnapshot`: the DNS-name-to-node directory. -/
structure RegistrySnapshot where
  nodes : List (String × Node)
deriving DecidableEq, Repr

/-- Mirrors rustls `ServerName`: DNS names are supported, IP addresses and
any further (non-exhaustive) identity kinds are not. -/
inductive ServerName
  | dnsName (name : String)
  | ipAddress (addr : Nat)
  | otherKind
deriving DecidableEq, Repr

/-- Mirrors the rustls `CertificateError` variants used by the verifier. -/
inductive CertificateError
  | badEncoding
  | badSignature
  | expired
deriving DecidableEq, Repr

/-- Mirrors the rustls `Error` variants used by the verifier. -/
inductive RustlsError
  | general (msg : String)
  | unsupportedNameType
  | invalidCertificate (e : CertificateError)
deriving DecidableEq, Repr

/-- Lookup in the snapshot's node map (`rs.nodes.get(v.as_ref())`). -/
def lookupNode (nodes : List (String × Node)) (name : String) : Option Node :=
  match nodes with
  | [] => none
  | (k, v) :: rest => if k = name then some v else lookupNode rest name

/-- Embedding of `TlsVerifier::verify_server_cert`
(src/rs/boundary_node/ic_boundary/src/tls_verify.rs).  `rs` is the currently
published registry snapshot, if any; `end_entity` is the peer certificate as
seen by the DER parser (`none` for an unparseable certificate); `now` is a
Unix timestamp.  The self-signature check succeeds exactly when the peer
certificate was signed by the subject key recorded for the node in the
registry, and the validity check is `not_before ≤ now ≤ not_after`. -/
def verify_server_cert (rs : Option RegistrySnapshot) (end_entity : Option ParsedCert)
    (server_name : ServerName) (now : Int) : Except RustlsError Unit :=
  match rs with
  | none => .error (.general "no routing table published")
  | some snapshot =>
    match server_name with
    | .ipAddress _ => .error .unsupportedNameType
    | .otherKind => .error .unsupportedNameType
    | .dnsName v =>
      match lookupNode snapshot.nodes v with
      | none => .error (.general ("Node " ++ v ++ " not found in a routing table"))
      | some node =>
        match end_entity with
        | none => .error (.invalidCertificate .badEncoding)
        | some provided_cert =>
          if provided_cert.signer_key ≠ node.tls_certificate.subject_key then
            .error (.invalidCertificate .badSignature)
          else if ¬(provided_cert.not_before ≤ now ∧ now ≤ provided_cert.not_after) then
            .error (.invalidCertificate .expired)
          else
            .ok ()

end TlsVerify

namespace SnsRoot

theorem self_mem_insertSorted (a : Nat) (l : List Nat) : a ∈ insertSorted a l := by
  induction l with
  | nil => simp [insertSorted]
  | cons b tl ih =>
    by_cases h1 : a < b
    · simp [insertSorted, h1]
    · by_cases h2 : a = b
      · simp [insertSorted, h1, h2]
      · simp only [insertSorted, if_neg h1, if_neg h2]
        exact List.mem_cons_of_mem _ ih

theorem mem_insertSorted_of_mem (a x : Nat) (l : List Nat) (h : x ∈ l) :
    x ∈ insertSorted a l := by
  induction l with
  | nil => simp at h
  | cons b tl ih =>
    by_cases h1 : a < b
    · simp only [insertSorted, if_pos h1]
      exact List.mem_cons_of_mem _ h
    · by_cases h2 : a = b
      · simpa [insertSorted, h1, h2] using h
      · simp only [insertSorted, if_neg h1, if_neg h2]
        rcases List.mem_cons.mp h with h3 | h3
        · exact h3 ▸ List.mem_cons_self _ _
        · exact List.mem_cons_of_mem _ (ih h3)

theorem mem_foldl_insertSorted (q : Nat) :
    ∀ (l acc : List Nat), q ∈ acc ∨ q ∈ l →
      q ∈ l.foldl (fun acc2 a => insertSorted a acc2) acc := by
  intro l
  induction l with
  | nil => intro acc h; simpa using h
  | cons a tl ih =>
    intro acc h
    simp only [List.foldl_cons]
    apply ih
    rcases h with h | h
    · exact Or.inl (mem_insertSorted_of_mem a q acc h)
    · rcases List.mem_cons.mp h with h2 | h2
      · exact Or.inl (h2 ▸ self_mem_insertSorted q acc)
      · exact Or.inr h2

theorem mem_toSortedSet (q : Nat) (l : List Nat) (h : q ∈ l) : q ∈ toSortedSet l :=
  mem_foldl_insertSorted q l [] (Or.inr h)

theorem registerLoop_aborts (root : Nat) (sns_ids snap : List Nat) (tf : Bool) (q : Nat)
    (hforb : q ∈ sns_ids) :
    ∀ l : List Nat, q ∈ l → ∀ (env : Nat → List Nat) (dapps : List Nat),
      ∃ d, registerLoop env root sns_ids snap tf dapps l = .aborted d := by
  intro l
  induction l with
  | nil => intro h; simp at h
  | cons p rest ih =>
    intro hq env dapps
    by_cases hp : p ∈ sns_ids
    · exact ⟨dapps, by simp [registerLoop, hp]⟩
    · have hqr : q ∈ rest := by
        rcases List.mem_cons.mp hq with h | h
        · exact absurd (h ▸ hforb) hp
        · exact h
      by_cases hd : p ∈ snap
      · simpa [registerLoop, hp, hd] using ih hqr env dapps
      · by_cases hc : root ∈ env p
        · by_cases hu : ¬(env p = [root]) ∧ tf = false
          · simpa [registerLoop, hp, hd, hc, hu] using ih hqr _ (dapps ++ [p])
          · simpa [registerLoop, hp, hd, hc, hu] using ih hqr env (dapps ++ [p])
        · exact ⟨dapps, by simp [registerLoop, hp, hd, hc]⟩

/-- C3 (counterexample): the claim asserts that a `register_dapp_canisters`
request containing a forbidden (distinguished SNS) canister id leaves
`dapp_canister_ids` with no state change at all.  On the state with
governance id 101 (root 100, every canister reporting `[100]` as its
controller list), the request `[10, 11, 101]` aborts on the forbidden id 101,
yet ids 10 and 11 — processed in earlier loop iterations — remain pushed into
`dapp_canister_ids`, which ends as `[10, 11]` instead of the original `[]`. -/
theorem register_dapp_canisters_partial_commit_cex :
    register_dapp_canisters (fun _ => [100]) 100
        (SnsRootCanister.mk 101 102 103 104 [] [] none false) [10, 11, 101]
      = .aborted [10, 11]
    ∧ ([10, 11] : List Nat)
      ≠ (SnsRootCanister.mk 101 102 103 104 [] [] none false).dapp_canister_ids := by
  exact ⟨by decide, by decide⟩

/-- C3 (amended): for every `register_dapp_canisters` request containing a
canister id equal to the root, governance, ledger, index, or swap canister id
or to any tracked archive canister id, the call always aborts (it never
completes successfully), but `dapp_canister_ids` is not rolled back: ids of
the same request processed in loop iterations before the abort remain
committed. -/
theorem register_dapp_canisters_forbidden_aborts (env : Nat → List Nat) (root : Nat)
    (s : SnsRootCanister) (request : List Nat) (q : Nat) (hq : q ∈ request)
    (hforb : q ∈ snsCanisterIds root s) :
    ∃ d, register_dapp_canisters env root s request = .aborted d := by
  have hne : ¬(request = []) := by rintro rfl; simp at hq
  simp only [register_dapp_canisters, if_neg hne]
  exact registerLoop_aborts root _ _ _ q hforb _ (mem_toSortedSet q request hq) env _

/-- Witness for C3: the request `[101]` against the same concrete state
aborts. -/
theorem register_dapp_canisters_forbidden_aborts_witness :
    ∃ d, register_dapp_canisters (fun _ => [100]) 100
        (SnsRootCanister.mk 101 102 103 104 [] [] none false) [101] = .aborted d :=
  register_dapp_canisters_forbidden_aborts (fun _ => [100]) 100
    (SnsRootCanister.mk 101 102 103 104 [] [] none false) [101] 101
    (by decide) (by decide)

/-- C7: when an archive poll's ledger response omits a previously tracked
archive canister id, `archive_canister_ids` is left unchanged while
`latest_ledger_archive_poll_timestamp_seconds` still advances to the poll's
timestamp; the timestamp is set before the ledger call is examined, so it
advances (and the archive list stays unchanged) even when the call fails. -/
theorem poll_for_new_archive_canisters_regression_guard (s : SnsRootCanister) (ts : Nat)
    (newIds : List Nat) (a : Nat) (ha : a ∈ s.archive_canister_ids) (hm : a ∉ newIds) :
    ((poll_for_new_archive_canisters s ts (.ok newIds)).archive_canister_ids
        = s.archive_canister_ids
      ∧ (poll_for_new_archive_canisters s ts
            (.ok newIds)).latest_ledger_archive_poll_timestamp_seconds = some ts)
    ∧ ∀ e, (poll_for_new_archive_canisters s ts
            (.error e)).archive_canister_ids = s.archive_canister_ids
        ∧ (poll_for_new_archive_canisters s ts
            (.error e)).latest_ledger_archive_poll_timestamp_seconds = some ts := by
  have hdef : ¬(compare_archives_responses s.archive_canister_ids newIds = []) := by
    simp only [compare_archives_responses, List.map_eq_nil_iff, List.filter_eq_nil_iff,
      not_forall]
    exact ⟨a, ha, by simpa using hm⟩
  refine ⟨⟨?_, ?_⟩, fun e => ⟨rfl, rfl⟩⟩
  · simp [poll_for_new_archive_canisters, hdef]
  · simp [poll_for_new_archive_canisters, hdef]

/-- Witness for C7: a poll at timestamp 9 whose response `[3]` omits the
tracked archive 2 leaves `[2]` tracked and records timestamp 9. -/
theorem poll_for_new_archive_canisters_regression_guard_witness :
    (poll_for_new_archive_canisters (SnsRootCanister.mk 1 1 1 1 [] [2] none false) 9
        (.ok [3])).archive_canister_ids = [2]
    ∧ (poll_for_new_archive_canisters (SnsRootCanister.mk 1 1 1 1 [] [2] none false) 9
        (.ok [3])).latest_ledger_archive_poll_timestamp_seconds = some 9 :=
  (poll_for_new_archive_canisters_regression_guard
    (SnsRootCanister.mk 1 1 1 1 [] [2] none false) 9 [3] 2 (by decide) (by decide)).1

/-- C8: with a recorded poll timestamp and `current ≥ latest`,
`should_poll_for_new_archive_canisters` returns `false` exactly when
`current - latest < 86400` and `true` when `current - latest ≥ 86400`; with
no recorded timestamp it returns `true` unconditionally. -/
theorem should_poll_for_new_archive_canisters_cadence (latest current : Nat)
    (h : latest ≤ current) :
    (should_poll_for_new_archive_canisters (some latest) current = some false ↔
      current - latest < 86400)
    ∧ (86400 ≤ current - latest →
        should_poll_for_new_archive_canisters (some latest) current = some true)
    ∧ ∀ c, should_poll_for_new_archive_canisters none c = some true := by
  have he : ONE_DAY_SECONDS = 86400 := by decide
  have hnl : ¬(current < latest) := Nat.not_lt.mpr h
  refine ⟨?_, ?_, fun c => rfl⟩
  · by_cases hd : current - latest < 86400
    · simp [should_poll_for_new_archive_canisters, he, hnl, hd]
    · simp [should_poll_for_new_archive_canisters, he, hnl, hd]
  · intro hge
    simp [should_poll_for_new_archive_canisters, he, hnl, Nat.not_lt.mpr hge]

/-- Witness for C8: at `latest = 0`, `current = 86399` the poll is skipped;
at `current = 86400` it happens. -/
theorem should_poll_for_new_archive_canisters_cadence_witness :
    should_poll_for_new_archive_canisters (some 0) 86399 = some false
    ∧ should_poll_for_new_archive_canisters (some 0) 86400 = some true :=
  ⟨(should_poll_for_new_archive_canisters_cadence 0 86399 (by decide)).1.mpr (by decide),
    (should_poll_for_new_archive_canisters_cadence 0 86400 (by decide)).2.1 (by decide)⟩

/-- C10: `should_poll_for_new_archive_canisters` is total only under the
precondition `latest ≤ current`: with a recorded timestamp greater than the
current one, the unchecked `u64` subtraction `current - latest` underflows (a
panic in a checked build, modelled as `none`) instead of returning a boolean,
while under the precondition a boolean is always returned. -/
theorem should_poll_for_new_archive_canisters_underflow (latest current : Nat)
    (h : current < latest) :
    should_poll_for_new_archive_canisters (some latest) current = none
    ∧ ∀ c, latest ≤ c →
        (should_poll_for_new_archive_canisters (some latest) c).isSome = true := by
  constructor
  · simp [should_poll_for_new_archive_canisters, h]
  · intro c hc
    have hnl : ¬(c < latest) := Nat.not_lt.mpr hc
    by_cases hd : c - latest < ONE_DAY_SECONDS
    · simp [should_poll_for_new_archive_canisters, hnl, hd]
    · simp [should_poll_for_new_archive_canisters, hnl, hd]

/-- Witness for C10: a poll timestamp of 5 with current time 4 underflows;
current time 5 yields a boolean. -/
theorem should_poll_for_new_archive_canisters_underflow_witness :
    should_poll_for_new_archive_canisters (some 5) 4 = none
    ∧ (should_poll_for_new_archive_canisters (some 5) 5).isSome = true :=
  ⟨(should_poll_for_new_archive_canisters_underflow 5 4 (by decide)).1,
    (should_poll_for_new_archive_canisters_underflow 5 4 (by decide)).2 5 (by decide)⟩

end SnsRoot

namespace CkEthMinter

theorem scrap_eth_logs_reaches_aux (n : Nat) :
    ∀ fromBlock toBlock : Nat, toBlock - fromBlock ≤ n → fromBlock ≤ toBlock →
      scrap_eth_logs fromBlock toBlock = toBlock := by
  induction n with
  | zero =>
    intro f t h1 h2
    have hft : f = t := by omega
    subst hft
    rw [scrap_eth_logs]
    simp
  | succ n ih =>
    intro f t h1 h2
    rw [scrap_eth_logs]
    by_cases hlt : f < t
    · rw [if_pos hlt]
      exact ih _ _ (by simp only [MAX_BLOCK_SPREAD]; omega) (by omega)
    · rw [if_neg hlt]
      omega

/-- C2: every `scrap_eth_logs_between(contract, from, to)` call with
`from < to` processes exactly the span from `from` to `min(from + 1024, to)`
and advances `last_scraped_block_number` to that same bound; with `from = to`
it is a no-op returning `to`; with `from > to` it traps.  Consequently each
step advances the scraped position by `min(1024, to - from)`, and the
`scrap_eth_logs` driver loop always terminates with
`last_scraped_block_number` equal to the queried target block. -/
theorem scrap_eth_logs_between_spec (fromBlock toBlock : Nat) :
    (fromBlock < toBlock →
      scrap_eth_logs_between fromBlock toBlock
        = .scraped fromBlock (min (fromBlock + 1024) toBlock))
    ∧ (fromBlock = toBlock → scrap_eth_logs_between fromBlock toBlock = .noop toBlock)
    ∧ (toBlock < fromBlock → scrap_eth_logs_between fromBlock toBlock = .trap)
    ∧ (fromBlock < toBlock →
        min (fromBlock + 1024) toBlock - fromBlock = min 1024 (toBlock - fromBlock))
    ∧ (fromBlock ≤ toBlock → scrap_eth_logs fromBlock toBlock = toBlock) := by
  refine ⟨?_, ?_, ?_, ?_, ?_⟩
  · intro h
    simp [scrap_eth_logs_between, MAX_BLOCK_SPREAD, h]
  · intro h
    subst h
    simp [scrap_eth_logs_between]
  · intro h
    have h1 : ¬(fromBlock < toBlock) := by omega
    have h2 : ¬(fromBlock = toBlock) := by omega
    simp [scrap_eth_logs_between, h1, h2]
  · intro h
    omega
  · intro h
    exact scrap_eth_logs_reaches_aux (toBlock - fromBlock) fromBlock toBlock le_rfl h

/-- Witness for C2: scraping 5000 blocks from 0 proceeds by a span of 1024
first, and the loop ends exactly at the target. -/
theorem scrap_eth_logs_between_spec_witness :
    scrap_eth_logs_between 0 5000 = .scraped 0 1024 ∧ scrap_eth_logs 0 5000 = 5000 :=
  ⟨by simpa using (scrap_eth_logs_between_spec 0 5000).1 (by decide),
    (scrap_eth_logs_between_spec 0 5000).2.2.2.2 (by decide)⟩

theorem collectReceipts_abort_of_dup_mem (w : Nat) :
    ∀ (items : List ((Nat × Nat) × Except Unit (Option TransactionReceipt)))
      (acc : List (Nat × TransactionReceipt)), w ∈ acc.map Prod.fst →
      (∃ h r, ((h, w), Except.ok (some r)) ∈ items) →
      collectReceipts acc items = none := by
  intro items
  induction items with
  | nil =>
    intro acc _ hex
    rcases hex with ⟨h, r, hmem⟩
    simp at hmem
  | cons x rest ih =>
    intro acc hacc hex
    obtain ⟨⟨xh, xw⟩, xres⟩ := x
    rcases xres with e | o
    · simp [collectReceipts]
    · rcases o with _ | rc
      · have hex2 : ∃ h r, ((h, w), Except.ok (some r)) ∈ rest := by
          rcases hex with ⟨h, r, hmem⟩
          rcases List.mem_cons.mp hmem with heq | hmem2
          · exact absurd heq (by simp)
          · exact ⟨h, r, hmem2⟩
        simpa [collectReceipts] using ih acc hacc hex2
      · by_cases hcx : xw ∈ acc.map Prod.fst
        · simp only [collectReceipts]
          rw [if_pos hcx]
        · have hacc2 : w ∈ (acc ++ [(xw, rc)]).map Prod.fst := by
            simp only [List.map_append]
            exact List.mem_append_left _ hacc
          have hex2 : ∃ h r, ((h, w), Except.ok (some r)) ∈ rest := by
            rcases hex with ⟨h, r, hmem⟩
            rcases List.mem_cons.mp hmem with heq | hmem2
            · exfalso
              have hww : w = xw := by
                have := congrArg (fun p => p.1.2) heq
                simpa using this
              exact hcx (hww ▸ hacc)
            · exact ⟨h, r, hmem2⟩
          simp only [collectReceipts]
          rw [if_neg hcx]
          exact ih _ hacc2 hex2

theorem collectReceipts_abort_of_conflict (w h1 h2 : Nat) (r1 r2 : TransactionReceipt)
    (l2 l3 : List ((Nat × Nat) × Except Unit (Option TransactionReceipt))) :
    ∀ (l1 : List ((Nat × Nat) × Except Unit (Option TransactionReceipt)))
      (acc : List (Nat × TransactionReceipt)),
      collectReceipts acc
        (l1 ++ ((h1, w), Except.ok (some r1)) ::
          (l2 ++ ((h2, w), Except.ok (some r2)) :: l3)) = none := by
  intro l1
  induction l1 with
  | nil =>
    intro acc
    by_cases hc : w ∈ acc.map Prod.fst
    · simp only [List.nil_append, collectReceipts]
      rw [if_pos hc]
    · simp only [List.nil_append, collectReceipts]
      rw [if_neg hc]
      exact collectReceipts_abort_of_dup_mem w _ _ (by simp) ⟨h2, r2, by simp⟩
  | cons x rest ih =>
    intro acc
    obtain ⟨⟨xh, xw⟩, xres⟩ := x
    rcases xres with e | o
    · simp [collectReceipts]
    · rcases o with _ | rc
      · simpa [collectReceipts] using ih acc
      · by_cases hc : xw ∈ acc.map Prod.fst
        · simp only [List.cons_append, collectReceipts]
          rw [if_pos hc]
        · simp only [List.cons_append, collectReceipts]
          rw [if_neg hc]
          exact ih (acc ++ [(xw, rc)])

/-- C1: if, during one `finalize_transactions_batch` pass, two (different)
transaction receipts are observed for the same withdrawal id, the whole pass
is aborted: no finalized transaction is recorded for any withdrawal of the
pass, and the minter's transaction state is unchanged, whatever the
surrounding entries of the pass are. -/
theorem finalize_transactions_batch_conflict_aborts {σ : Type}
    (record : σ → Nat → TransactionReceipt → σ) (s : σ)
    (l1 l2 l3 : List ((Nat × Nat) × Except Unit (Option TransactionReceipt)))
    (h1 h2 w : Nat) (r1 r2 : TransactionReceipt) (_hne : r1 ≠ r2) :
    finalize_transactions_batch record s
      (l1 ++ ((h1, w), Except.ok (some r1)) ::
        (l2 ++ ((h2, w), Except.ok (some r2)) :: l3)) = s := by
  have habort := collectReceipts_abort_of_conflict w h1 h2 r1 r2 l2 l3 l1 []
  simp [finalize_transactions_batch, habort]

/-- Witness for C1: two receipts with distinct block hashes for withdrawal id
5 make the pass record nothing. -/
theorem finalize_transactions_batch_conflict_aborts_witness :
    finalize_transactions_batch (fun (s : List Nat) w _ => s ++ [w]) []
      [((1, 5), Except.ok (some ⟨10, 0, 0, 0, .success, 1⟩)),
        ((2, 5), Except.ok (some ⟨11, 0, 0, 0, .success, 2⟩))] = [] := by
  have h := finalize_transactions_batch_conflict_aborts
    (fun (s : List Nat) w _ => s ++ [w]) [] [] [] [] 1 2 5
    ⟨10, 0, 0, 0, .success, 1⟩ ⟨11, 0, 0, 0, .success, 2⟩ (by decide)
  simpa using h

/-- C6: in `send_transactions_batch`, a broadcast answered with
`NonceTooLow` leads to exactly the same `record_sent_transaction` state
transition as a successful broadcast (both per item and for the whole batch),
while every other RPC rejection and every transport error leaves the
transaction state unchanged for a later retry. -/
theorem send_transactions_batch_nonce_too_low {σ : Type} (record : σ → Nat → σ)
    (s : σ) (tx : Nat) :
    (process_send_result record s tx (some (.result .NonceTooLow))
        = process_send_result record s tx (some (.result .Ok))
      ∧ process_send_result record s tx (some (.result .Ok)) = record s tx)
    ∧ (∀ a, a ≠ SendRawTransactionResult.Ok → a ≠ SendRawTransactionResult.NonceTooLow →
        process_send_result record s tx (some (.result a)) = s)
    ∧ (∀ code msg, process_send_result record s tx (some (.error code msg)) = s)
    ∧ process_send_result record s tx none = s
    ∧ ∀ rest, send_transactions_batch record s ((tx, some (.result .NonceTooLow)) :: rest)
        = send_transactions_batch record s ((tx, some (.result .Ok)) :: rest) := by
  refine ⟨⟨rfl, rfl⟩, ?_, fun code msg => rfl, rfl, fun rest => rfl⟩
  intro a ha1 ha2
  cases a with
  | Ok => exact absurd rfl ha1
  | InsufficientFunds => rfl
  | NonceTooLow => exact absurd rfl ha2
  | NonceTooHigh => rfl

/-- Witness for C6: with the state being the list of sent transactions, a
`NonceTooLow` reply records transaction 7 while an `InsufficientFunds`
rejection records nothing. -/
theorem send_transactions_batch_nonce_too_low_witness :
    process_send_result (fun (l : List Nat) t => l ++ [t]) [] 7
        (some (.result .NonceTooLow)) = [7]
    ∧ process_send_result (fun (l : List Nat) t => l ++ [t]) [] 7
        (some (.result .InsufficientFunds)) = [] := by
  have h := send_transactions_batch_nonce_too_low (fun (l : List Nat) t => l ++ [t]) [] 7
  refine ⟨by rw [h.1.1, h.1.2]; rfl, h.2.1 .InsufficientFunds (by decide) (by decide)⟩

end CkEthMinter

namespace PocketIc

/-- C4 (counterexample): the claim asserts that a well-formed
`/verify_signature` request whose signature is cryptographically invalid is
answered with a status code outside the client-error (4xx) class.  With both
keys parsing fine and the verification failing, the handler answers
`406 Not Acceptable` — distinguishable from the `400` of malformed input, but
itself a 4xx client-error code, so the claim as stated is false. -/
theorem verify_signature_invalid_sig_is_client_error :
    (verify_signature (.ok 0) (.ok 0) fun _ _ => .error "invalid").1 = 406
    ∧ isClientError (verify_signature (.ok 0) (.ok 0) fun _ _ => .error "invalid").1
        = true := by
  exact ⟨rfl, rfl⟩

/-- C4 (amended): a valid signature yields HTTP 200; a public key or root
public key that fails DER parsing yields the client error 400; a well-formed
request whose signature is cryptographically invalid yields 406 — a failure
code distinguishable from the malformed-input 400, though it still lies in
the 4xx client-error class. -/
theorem verify_signature_status_spec (pk rk : Nat) (e : String)
    (f : Nat → Nat → Except String Unit) (rp : Except String Nat) :
    ((verify_signature (.error e) rp f).1 = 400 ∧ isClientError 400 = true)
    ∧ (verify_signature (.ok pk) (.error e) f).1 = 400
    ∧ (f pk rk = .ok () → verify_signature (.ok pk) (.ok rk) f = (200, .ok ()))
    ∧ (f pk rk = .error e →
        (verify_signature (.ok pk) (.ok rk) f).1 = 406
          ∧ (406 : Nat) ≠ 400 ∧ isClientError 406 = true) := by
  refine ⟨⟨rfl, rfl⟩, rfl, ?_, ?_⟩
  · intro h
    simp [verify_signature, h]
  · intro h
    exact ⟨by simp [verify_signature, h], by decide, rfl⟩

/-- Witness for C4 (amended): a concrete failing verification is answered
with 406, and a concrete succeeding one with 200. -/
theorem verify_signature_status_spec_witness :
    (verify_signature (.ok 1) (.ok 2) fun _ _ => .error "bad").1 = 406
    ∧ verify_signature (.ok 1) (.ok 2) (fun _ _ => .ok ()) = (200, .ok ()) :=
  ⟨((verify_signature_status_spec 1 2 "bad" (fun _ _ => .error "bad") (.ok 2)).2.2.2
      rfl).1,
    (verify_signature_status_spec 1 2 "bad" (fun _ _ => .ok ()) (.ok 2)).2.2.1 rfl⟩

theorem fetch_blobInsert (m : List (List Nat × BinaryBlob)) (k : List Nat)
    (v : BinaryBlob) : fetch (blobInsert m k v) k = some v := by
  induction m with
  | nil => simp [blobInsert, fetch]
  | cons hd tl ih =>
    obtain ⟨k2, v2⟩ := hd
    by_cases hk : k2 = k
    · simp [blobInsert, fetch, hk]
    · simp [blobInsert, fetch, hk, ih]

/-- C9: the `BlobId` a store returns is the digest of the blob's data bytes
only — the compression marker is not hashed — so posting the same body first
with `Content-Encoding: gzip` and then without it yields the same `BlobId`,
and the second store overwrites the first entry's compression marker: a
subsequent fetch of that id now reports no `Content-Encoding` where it
previously reported `gzip`.  This holds for every digest function, hence in
particular for SHA-256. -/
theorem blob_store_id_ignores_compression (hash : List Nat → List Nat)
    (m : List (List Nat × BinaryBlob)) (body : List Nat) :
    (set_blob_store_entry hash m (some "gzip") body).2.2 = some (hash body)
    ∧ (set_blob_store_entry hash
        (set_blob_store_entry hash m (some "gzip") body).1 none body).2.2
      = some (hash body)
    ∧ get_blob_store_entry (set_blob_store_entry hash m (some "gzip") body).1 (hash body)
      = (200, some "gzip", body)
    ∧ get_blob_store_entry
        (set_blob_store_entry hash
          (set_blob_store_entry hash m (some "gzip") body).1 none body).1 (hash body)
      = (200, none, body) := by
  refine ⟨rfl, rfl, ?_, ?_⟩
  · simp [get_blob_store_entry, set_blob_store_entry, store, fetch_blobInsert]
  · simp [get_blob_store_entry, set_blob_store_entry, store, fetch_blobInsert]

end PocketIc

namespace TlsVerify

/-- C5: `verify_server_cert` fails with the no-routing-table kind when no
snapshot is published; with `UnsupportedNameType` for a non-DNS identity;
with the not-found kind for a DNS name absent from the snapshot; with
`BadEncoding` for an unparseable peer certificate; with `BadSignature` when
the peer certificate's self-signature does not verify under the
registry-recorded node key, even if the certificate is currently time-valid;
with `Expired` when the signature verifies but the validity interval excludes
`now`; and succeeds otherwise. -/
theorem verify_server_cert_spec (snapshot : RegistrySnapshot) (cert : ParsedCert)
    (name : String) (node : Node) (now : Int) :
    (∀ e sn, verify_server_cert none e sn now
        = .error (.general "no routing table published"))
    ∧ (∀ a e, verify_server_cert (some snapshot) e (.ipAddress a) now
        = .error .unsupportedNameType)
    ∧ (∀ e, verify_server_cert (some snapshot) e .otherKind now
        = .error .unsupportedNameType)
    ∧ (lookupNode snapshot.nodes name = none → ∀ e,
        verify_server_cert (some snapshot) e (.dnsName name) now
          = .error (.general ("Node " ++ name ++ " not found in a routing table")))
    ∧ (lookupNode snapshot.nodes name = some node →
        verify_server_cert (some snapshot) none (.dnsName name) now
          = .error (.invalidCertificate .badEncoding))
    ∧ (lookupNode snapshot.nodes name = some node →
        cert.signer_key ≠ node.tls_certificate.subject_key →
        cert.not_before ≤ now → now ≤ cert.not_after →
        verify_server_cert (some snapshot) (some cert) (.dnsName name) now
          = .error (.invalidCertificate .badSignature))
    ∧ (lookupNode snapshot.nodes name = some node →
        cert.signer_key = node.tls_certificate.subject_key →
        ¬(cert.not_before ≤ now ∧ now ≤ cert.not_after) →
        verify_server_cert (some snapshot) (some cert) (.dnsName name) now
          = .error (.invalidCertificate .expired))
    ∧ (lookupNode snapshot.nodes name = some node →
        cert.signer_key = node.tls_certificate.subject_key →
        cert.not_before ≤ now → now ≤ cert.not_after →
        verify_server_cert (some snapshot) (some cert) (.dnsName name) now = .ok ()) := by
  refine ⟨fun e sn => rfl, fun a e => rfl, fun e => rfl, ?_, ?_, ?_, ?_, ?_⟩
  · intro hl e
    simp [verify_server_cert, hl]
  · intro hl
    simp [verify_server_cert, hl]
  · intro hl hsig _ _
    simp [verify_server_cert, hl, hsig]
  · intro hl hsig hval
    simp [verify_server_cert, hl, hsig, hval]
  · intro hl hsig h1 h2
    simp [verify_server_cert, hl, hsig, h1, h2]

/-- Witness for C5: a snapshot recording node "n" with subject key 5, a peer
certificate signed by key 5 and valid at time 50, verifies; the same
certificate against a snapshot recording subject key 6 is rejected with
`BadSignature` although it is time-valid. -/
theorem verify_server_cert_spec_witness :
    verify_server_cert (some ⟨[("n", ⟨⟨5, 5, 0, 100⟩⟩)]⟩) (some ⟨7, 5, 0, 100⟩)
        (.dnsName "n") 50 = .ok ()
    ∧ verify_server_cert (some ⟨[("n", ⟨⟨6, 6, 0, 100⟩⟩)]⟩) (some ⟨7, 5, 0, 100⟩)
        (.dnsName "n") 50 = .error (.invalidCertificate .badSignature) :=
  ⟨(verify_server_cert_spec ⟨[("n", ⟨⟨5, 5, 0, 100⟩⟩)]⟩ ⟨7, 5, 0, 100⟩ "n"
      ⟨⟨5, 5, 0, 100⟩⟩ 50).2.2.2.2.2.2.2 (by simp [lookupNode]) rfl (by decide) (by decide),
    (verify_server_cert_spec ⟨[("n", ⟨⟨6, 6, 0, 100⟩⟩)]⟩ ⟨7, 5, 0, 100⟩ "n"
      ⟨⟨6, 6, 0, 100⟩⟩ 50).2.2.2.2.2.1 (by simp [lookupNode]) (by decide)
      (by decide) (by decide)⟩

end TlsVerify

